import Mathlib

/-!
# Event scheduling and reminder subsystem of `telegram-diary`

A shallow embedding of the event CRUD, conflict-detection and
reminder-claim/acknowledge logic of `src/service/api/repository.py`
(functions `_normalize_participants`, `_ensure_timezone`, `_event_to_out`,
`_event_conflict_labels`, `_find_conflicts`, `create_event`, `update_event`,
`delete_event`, `claim_due_reminders`, `mark_reminder_sent`).

Modelling conventions:
* Instants (`datetime` values) are integers; the unit is minutes, so the
  reminder lookahead `timedelta(minutes=10)` becomes `+ 10`.  Comparisons on
  timezone-aware datetimes compare the underlying instants, which is what the
  integer order models.
* User and event identifiers are integers (`Int`), as in the source, where
  Telegram identifiers are arbitrary-precision Python ints mapped to
  `BigInteger` columns.
* The event store (the `events` table joined with its `event_participants`
  rows) is a `List Event` in row order; each `Event` carries the multiset of
  its `EventParticipant` rows as a `List Int`.  The database primary keys
  (`events.id`; `(event_id, participant_tg_user_id)` on participants) make
  event ids unique and participant rows per event duplicate-free in every
  reachable store; theorems that need these facts take them as hypotheses on
  the rows they touch instead of assuming a global invariant.
* A SQL `SELECT ... WHERE p ORDER BY k ASC` over the store is modelled as
  `List.insertionSort` (a stable sort) by `k` of `List.filter p`: the filter
  keeps row order, and rows with equal keys stay in row order, which fixes
  one concrete representative of the orders SQL may return (SQL leaves the
  relative order of equal keys unspecified).
* Python funtions that `raise` (`ValueError` for validation,
  `PermissionError` for ownership) or return tuples with `None` members are
  total Lean functions into explicit result types (`CreateResult`,
  `UpdateResult`, `DeleteResult`), paired with the store after the call so
  that writes (or their absence) are visible.
-/

/-- A row of the `events` table together with its `event_participants` rows
(`participants`).  The `created_at`/`updated_at` audit columns are never read
by the functions under study and are omitted. -/
structure Event where
  id : Int
  creator_tg_user_id : Int
  title : String
  start_at : Int
  end_at : Int
  reminder_sent : Bool
  participants : List Int
deriving Repr, DecidableEq

/-- Schema `EventCreate`: the payload of a create request. -/
structure EventCreate where
  creator_tg_user_id : Int
  title : String
  start_at : Int
  end_at : Int
  participants : List Int
deriving Repr, DecidableEq

/-- Schema `EventUpdate`: the payload of an update request. -/
structure EventUpdate where
  actor_tg_user_id : Int
  title : String
  start_at : Int
  end_at : Int
  participants : List Int
deriving Repr, DecidableEq

/-- Schema `EventDelete`: the payload of a delete request. -/
structure EventDelete where
  actor_tg_user_id : Int
deriving Repr, DecidableEq

/-- Schema `EventOut`: the public view of an event. -/
structure EventOut where
  id : Int
  creator_tg_user_id : Int
  title : String
  start_at : Int
  end_at : Int
  participants : List Int
deriving Repr, DecidableEq

/-- Schema `ConflictItem`: one entry of the conflict list returned by a
rejected create/update. -/
structure ConflictItem where
  event_id : Int
  title : String
  start_at : Int
  end_at : Int
  conflicting_participants : List Int
deriving Repr, DecidableEq

/-- Schema `ReminderOut`: one due reminder returned by `claim_due_reminders`. -/
structure ReminderOut where
  event_id : Int
  recipients : List Int
  title : String
  start_at : Int
deriving Repr, DecidableEq

/-- `_normalize_participants`: collect the input ids into a set, skipping every
`value < 1`, and return the set sorted ascending (Python
`sorted(cleaned)` on the built `set`). -/
def _normalize_participants (participants : List Int) : List Int :=
  List.insertionSort (· ≤ ·) ((participants.filter fun v => decide (1 ≤ v)).dedup)

/-- `_ensure_timezone`: attaches UTC to naive datetimes and converts aware
ones to UTC.  Both operations preserve the instant a datetime denotes, so on
the integer-instant model this is the identity. -/
def _ensure_timezone (value : Int) : Int :=
  value

/-- `_event_to_out`: the public view; participants are the event's
participant rows sorted ascending (Python `sorted`, which does not
deduplicate). -/
def _event_to_out (event : Event) : EventOut :=
  { id := event.id
    creator_tg_user_id := event.creator_tg_user_id
    title := event.title
    start_at := event.start_at
    end_at := event.end_at
    participants := List.insertionSort (· ≤ ·) event.participants }

/-- `_event_conflict_labels`: the sorted intersection of the existing event's
participant set with the requested labels.  Note that the existing event's
creator is not part of `involved`. -/
def _event_conflict_labels (event : Event) (labels : List Int) : List Int :=
  List.insertionSort (· ≤ ·)
    ((event.participants.dedup.filter fun v => decide (v ∈ labels)))

/-- The `WHERE` clause of the `_find_conflicts` query, as a row predicate:
time windows overlap (`Event.start_at < end_at AND Event.end_at > start_at`),
and the existing creator equals the requesting creator or some existing
participant row is in `labels`, and the row is not the excluded event. -/
def conflict_row_pred (creator_id : Int) (labels : List Int) (start_at end_at : Int)
    (exclude_event_id : Option Int) (e : Event) : Bool :=
  decide (e.start_at < end_at) && decide (start_at < e.end_at)
    && (decide (e.creator_tg_user_id = creator_id)
        || e.participants.any fun p => decide (p ∈ labels))
    && (match exclude_event_id with
        | none => true
        | some excluded => decide (e.id ≠ excluded))

instance : DecidableRel fun a b : Event => a.start_at ≤ b.start_at :=
  fun a b => Int.decLe a.start_at b.start_at

instance : IsTotal Event fun a b : Event => a.start_at ≤ b.start_at :=
  ⟨fun a b => Int.le_total a.start_at b.start_at⟩

instance : IsTrans Event fun a b : Event => a.start_at ≤ b.start_at :=
  ⟨fun _ _ _ h h' => le_trans h h'⟩

/-- `_find_conflicts`: the rows satisfying `conflict_row_pred`, ordered by
`start_at` ascending (`ORDER BY events.start_at ASC`; no further sort key, so
rows with equal `start_at` keep their relative store order).  The SQL
`DISTINCT` only undoes the row duplication of the outer join with
`event_participants` and is a no-op on the per-event row model. -/
def _find_conflicts (events : List Event) (creator_id : Int) (labels : List Int)
    (start_at end_at : Int) (exclude_event_id : Option Int) : List Event :=
  List.insertionSort (fun a b => a.start_at ≤ b.start_at)
    (events.filter (conflict_row_pred creator_id labels start_at end_at exclude_event_id))

/-- The `ConflictItem` built for one conflicting event in `create_event` and
`update_event`. -/
def conflict_item_of_event (labels : List Int) (item : Event) : ConflictItem :=
  { event_id := item.id
    title := item.title
    start_at := item.start_at
    end_at := item.end_at
    conflicting_participants := _event_conflict_labels item labels }

/-- Outcome of `create_event`: `validationError msg` models `raise
ValueError(msg)`, `conflict items` the `(None, items)` return, and `created
out` the `(out, [])` return. -/
inductive CreateResult where
  | validationError (msg : String)
  | conflict (items : List ConflictItem)
  | created (out : EventOut)
deriving Repr, DecidableEq

/-- Outcome of `update_event`: `notFound` models `(None, [], False)`,
`forbidden msg` models `raise PermissionError(msg)`, `validationError msg`
models `raise ValueError(msg)`, `conflict items` models `(None, items, True)`
and `updated out` models `(out, [], True)`. -/
inductive UpdateResult where
  | notFound
  | forbidden (msg : String)
  | validationError (msg : String)
  | conflict (items : List ConflictItem)
  | updated (out : EventOut)
deriving Repr, DecidableEq

/-- Outcome of `delete_event`: `notFound` models the `False` return for a
missing row, `forbidden msg` models `raise PermissionError(msg)`, `deleted`
the `True` return. -/
inductive DeleteResult where
  | notFound
  | forbidden (msg : String)
  | deleted
deriving Repr, DecidableEq

/-- `create_event`.  `next_id` is the id the autoincrement column assigns to
the inserted row; `now` is `datetime.now(UTC)` at the moment of the call.
Validation raises before any query; a conflict returns without writing; a
success appends the new event row (with its participant rows, which are
inserted in the sorted order of `participant_labels`) and returns the
refreshed view. -/
def create_event (events : List Event) (next_id : Int) (now : Int)
    (payload : EventCreate) : CreateResult × List Event :=
  let start_at := _ensure_timezone payload.start_at
  let end_at := _ensure_timezone payload.end_at
  if start_at < now then
    (.validationError "start_at must be greater than or equal to current time", events)
  else if end_at ≤ start_at then
    (.validationError "end_at must be later than start_at", events)
  else
    let participant_labels := _normalize_participants payload.participants
    let conflicts :=
      _find_conflicts events payload.creator_tg_user_id participant_labels start_at end_at none
    if conflicts = [] then
      let event : Event :=
        { id := next_id
          creator_tg_user_id := payload.creator_tg_user_id
          title := payload.title
          start_at := start_at
          end_at := end_at
          reminder_sent := false
          participants := participant_labels }
      (.created (_event_to_out event), events ++ [event])
    else
      (.conflict (conflicts.map (conflict_item_of_event participant_labels)), events)

/-- `update_event`.  Loads the row by id (`scalar_one_or_none`; the primary
key makes at most one row match), checks ownership, validates, re-runs the
conflict check excluding the event's own id, and on success overwrites
title/start/end, clears `reminder_sent`, and replaces the participant rows
(`DELETE` then re-insert) before returning the refreshed view. -/
def update_event (events : List Event) (now : Int) (event_id : Int)
    (payload : EventUpdate) : UpdateResult × List Event :=
  match events.find? fun e => decide (e.id = event_id) with
  | none => (.notFound, events)
  | some current =>
    if current.creator_tg_user_id ≠ payload.actor_tg_user_id then
      (.forbidden "Only creator can update event", events)
    else
      let start_at := _ensure_timezone payload.start_at
      let end_at := _ensure_timezone payload.end_at
      if start_at < now then
        (.validationError "start_at must be greater than or equal to current time", events)
      else if end_at ≤ start_at then
        (.validationError "end_at must be later than start_at", events)
      else
        let participant_labels := _normalize_participants payload.participants
        let conflicts :=
          _find_conflicts events payload.actor_tg_user_id participant_labels start_at end_at
            (some event_id)
        if conflicts = [] then
          let events' := events.map fun e =>
            if e.id = event_id then
              { e with
                  title := payload.title
                  start_at := start_at
                  end_at := end_at
                  reminder_sent := false
                  participants := participant_labels }
            else e
          let refreshed : Event :=
            { current with
                title := payload.title
                start_at := start_at
                end_at := end_at
                reminder_sent := false
                participants := participant_labels }
          (.updated (_event_to_out refreshed), events')
        else
          (.conflict (conflicts.map (conflict_item_of_event participant_labels)), events)

/-- `delete_event`: loads the row by id, checks ownership, deletes the row
(the participations go with it by the `ON DELETE CASCADE` on
`event_participants`, which the row model carries inside the event). -/
def delete_event (events : List Event) (event_id : Int)
    (payload : EventDelete) : DeleteResult × List Event :=
  match events.find? fun e => decide (e.id = event_id) with
  | none => (.notFound, events)
  | some event =>
    if event.creator_tg_user_id ≠ payload.actor_tg_user_id then
      (.forbidden "Only creator can delete event", events)
    else
      (.deleted, events.eraseP fun e => decide (e.id = event_id))

/-- The `ReminderOut` built for one due event: recipients are the creator
united with the event's participant rows, as a set, sorted (Python
`sorted({creator}.union(participants))`). -/
def reminder_out_of_event (item : Event) : ReminderOut :=
  { event_id := item.id
    recipients := List.insertionSort (· ≤ ·) ((item.creator_tg_user_id :: item.participants).dedup)
    title := item.title
    start_at := item.start_at }

/-- `claim_due_reminders`: the events with `reminder_sent = false` and
`now < start_at ≤ now + 10` minutes, ordered by `start_at` ascending, each
with its recipient set.  The Python body only executes `SELECT` statements,
so the call is a pure read of the store and is modelled as a function that
does not return a new store. -/
def claim_due_reminders (events : List Event) (now : Int) : List ReminderOut :=
  let now := _ensure_timezone now
  let deadline := now + 10
  let due := List.insertionSort (fun a b => a.start_at ≤ b.start_at)
    (events.filter fun e =>
      decide (e.reminder_sent = false) && decide (now < e.start_at)
        && decide (e.start_at ≤ deadline))
  due.map reminder_out_of_event

/-- `mark_reminder_sent`: `UPDATE events SET reminder_sent = true WHERE id =
event_id AND reminder_sent = false`, returning `rowcount > 0`. -/
def mark_reminder_sent (events : List Event) (event_id : Int) : Bool × List Event :=
  let matched := events.filter fun e => decide (e.id = event_id) && decide (e.reminder_sent = false)
  let events' := events.map fun e =>
    if e.id = event_id ∧ e.reminder_sent = false then { e with reminder_sent := true } else e
  (decide (0 < matched.length), events')

/-- Follows the spec's words for claim C1 (not the source): an event
conflicts when its window satisfies the half-open overlap test and its
creator-or-participant set intersects the request's involved users
`U = {creator} ∪ participants`, and it is not the excluded event. -/
def spec_claimed_conflict (involvedUsers : List Int) (start_at end_at : Int)
    (exclude_event_id : Option Int) (e : Event) : Bool :=
  decide (e.start_at < end_at) && decide (start_at < e.end_at)
    && ((e.creator_tg_user_id :: e.participants).any fun u => decide (u ∈ involvedUsers))
    && (match exclude_event_id with
        | none => true
        | some excluded => decide (e.id ≠ excluded))

/-! ## Helper lemmas about the query building blocks -/

theorem mem_normalize_iff (l : List Int) (u : Int) :
    u ∈ _normalize_participants l ↔ (u ∈ l ∧ 1 ≤ u) := by
  simp [_normalize_participants, List.mem_insertionSort, List.mem_dedup, List.mem_filter]

theorem normalize_nodup (l : List Int) : (_normalize_participants l).Nodup :=
  ((List.perm_insertionSort _ _).nodup_iff).mpr (List.nodup_dedup _)

theorem normalize_sorted (l : List Int) :
    List.Sorted (· ≤ ·) (_normalize_participants l) :=
  List.sorted_insertionSort _ _

theorem conflict_row_pred_iff (creator_id : Int) (labels : List Int)
    (start_at end_at : Int) (exclude_event_id : Option Int) (e : Event) :
    conflict_row_pred creator_id labels start_at end_at exclude_event_id e = true ↔
      (e.start_at < end_at ∧ start_at < e.end_at
        ∧ (e.creator_tg_user_id = creator_id ∨ ∃ p ∈ e.participants, p ∈ labels)
        ∧ ∀ x, exclude_event_id = some x → e.id ≠ x) := by
  cases exclude_event_id <;>
    simp [conflict_row_pred, List.any_eq_true, and_assoc]

theorem mem_find_conflicts_iff (events : List Event) (creator_id : Int)
    (labels : List Int) (start_at end_at : Int) (exclude_event_id : Option Int)
    (e : Event) :
    e ∈ _find_conflicts events creator_id labels start_at end_at exclude_event_id ↔
      (e ∈ events ∧ e.start_at < end_at ∧ start_at < e.end_at
        ∧ (e.creator_tg_user_id = creator_id ∨ ∃ p ∈ e.participants, p ∈ labels)
        ∧ ∀ x, exclude_event_id = some x → e.id ≠ x) := by
  rw [_find_conflicts, List.mem_insertionSort, List.mem_filter,
    conflict_row_pred_iff]

theorem mem_conflict_labels_iff (ev : Event) (labels : List Int) (u : Int) :
    u ∈ _event_conflict_labels ev labels ↔ (u ∈ ev.participants ∧ u ∈ labels) := by
  simp [_event_conflict_labels, List.mem_insertionSort, List.mem_dedup, List.mem_filter]
/-- The event row `create_event` inserts on success. -/
def new_event_row (next_id : Int) (payload : EventCreate) : Event :=
  { id := next_id
    creator_tg_user_id := payload.creator_tg_user_id
    title := payload.title
    start_at := payload.start_at
    end_at := payload.end_at
    reminder_sent := false
    participants := _normalize_participants payload.participants }

/-- The event row `update_event` writes over `current` on success. -/
def updated_event_row (current : Event) (payload : EventUpdate) : Event :=
  { current with
      title := payload.title
      start_at := payload.start_at
      end_at := payload.end_at
      reminder_sent := false
      participants := _normalize_participants payload.participants }

theorem create_event_created_inv {events : List Event} {next_id now : Int}
    {payload : EventCreate} {out : EventOut} {events' : List Event}
    (h : create_event events next_id now payload = (.created out, events')) :
    ¬ payload.start_at < now ∧ ¬ payload.end_at ≤ payload.start_at
      ∧ _find_conflicts events payload.creator_tg_user_id
          (_normalize_participants payload.participants) payload.start_at payload.end_at none = []
      ∧ out = _event_to_out (new_event_row next_id payload)
      ∧ events' = events ++ [new_event_row next_id payload] := by
  simp only [create_event, _ensure_timezone] at h
  split at h
  · simp at h
  · split at h
    · simp at h
    · split at h
      · simp only [Prod.mk.injEq, CreateResult.created.injEq] at h
        refine ⟨by assumption, by assumption, by assumption, ?_, ?_⟩
        · exact h.1.symm
        · exact h.2.symm
      · simp at h

theorem create_event_conflict_inv {events : List Event} {next_id now : Int}
    {payload : EventCreate} {items : List ConflictItem} {events' : List Event}
    (h : create_event events next_id now payload = (.conflict items, events')) :
    ¬ payload.start_at < now ∧ ¬ payload.end_at ≤ payload.start_at
      ∧ events' = events
      ∧ items = (_find_conflicts events payload.creator_tg_user_id
            (_normalize_participants payload.participants) payload.start_at payload.end_at
            none).map
          (conflict_item_of_event (_normalize_participants payload.participants)) := by
  simp only [create_event, _ensure_timezone] at h
  split at h
  · simp at h
  · split at h
    · simp at h
    · split at h
      · simp at h
      · simp only [Prod.mk.injEq, CreateResult.conflict.injEq] at h
        exact ⟨by assumption, by assumption, h.2.symm, h.1.symm⟩

theorem update_event_updated_inv {events : List Event} {now event_id : Int}
    {payload : EventUpdate} {out : EventOut} {events' : List Event}
    (h : update_event events now event_id payload = (.updated out, events')) :
    ∃ current, (events.find? fun e => decide (e.id = event_id)) = some current
      ∧ current.creator_tg_user_id = payload.actor_tg_user_id
      ∧ ¬ payload.start_at < now ∧ ¬ payload.end_at ≤ payload.start_at
      ∧ _find_conflicts events payload.actor_tg_user_id
          (_normalize_participants payload.participants) payload.start_at payload.end_at
          (some event_id) = []
      ∧ out = _event_to_out (updated_event_row current payload)
      ∧ events' = events.map fun e =>
          if e.id = event_id then updated_event_row e payload else e := by
  simp only [update_event, _ensure_timezone] at h
  split at h
  · simp at h
  · next current heq =>
    split at h
    · simp at h
    · next howner =>
      rw [not_not] at howner
      split at h
      · simp at h
      · split at h
        · simp at h
        · split at h
          · simp only [Prod.mk.injEq, UpdateResult.updated.injEq] at h
            refine ⟨current, heq, howner, by assumption, by assumption, by assumption,
              h.1.symm, ?_⟩
            rw [← h.2]
            rfl
          · simp at h

theorem update_event_conflict_inv {events : List Event} {now event_id : Int}
    {payload : EventUpdate} {items : List ConflictItem} {events' : List Event}
    (h : update_event events now event_id payload = (.conflict items, events')) :
    ∃ current, (events.find? fun e => decide (e.id = event_id)) = some current
      ∧ current.creator_tg_user_id = payload.actor_tg_user_id
      ∧ events' = events
      ∧ items = (_find_conflicts events payload.actor_tg_user_id
            (_normalize_participants payload.participants) payload.start_at payload.end_at
            (some event_id)).map
          (conflict_item_of_event (_normalize_participants payload.participants)) := by
  simp only [update_event, _ensure_timezone] at h
  split at h
  · simp at h
  · next current heq =>
    split at h
    · simp at h
    · next howner =>
      rw [not_not] at howner
      split at h
      · simp at h
      · split at h
        · simp at h
        · split at h
          · simp at h
          · simp only [Prod.mk.injEq, UpdateResult.conflict.injEq] at h
            exact ⟨current, heq, howner, h.2.symm, h.1.symm⟩

/-! ## Claim C1 -/

/-- C1, counterexample.  Stored event: id 1, creator 1, no participants,
window `[0, 10)`.  A create by creator 2 with participant set `{1}` over the
same window has involved users `U = {2, 1}`, and the stored event's
creator-or-participant set `{1}` intersects `U`, so the claim requires the
conflict check to return the stored event; `_find_conflicts` (called with
`creator_id = 2` and `labels = [1]`, exactly as `create_event` calls it)
returns the empty list instead: the query compares the request's creator only
against stored creators and the request's participants only against stored
participant rows, so cross matches are missed. -/
theorem find_conflicts_miss_cross_user_overlap :
    spec_claimed_conflict [2, 1] 0 10 none ⟨1, 1, "Standup", 0, 10, false, []⟩ = true
      ∧ _find_conflicts [⟨1, 1, "Standup", 0, 10, false, []⟩] 2 [1] 0 10 none = [] := by
  constructor <;> decide

/-- C1, amended: the conflict list contains exactly the stored events (other
than the excluded one) whose window satisfies `existing.start < end ∧
existing.end > start` and whose creator equals the requesting creator OR
whose participant set intersects the request's participant labels (cross
matches between a request's creator and stored participants, or a request's
participants and stored creators, are not detected).  Touching windows never
conflict, and events whose involved-user sets are disjoint never conflict;
`create_event` rejects with a conflict exactly when this check is nonempty.
The last conjunct shows the check does fire on a same-creator overlap. -/
theorem find_conflicts_characterization :
    (∀ (events : List Event) (creator_id : Int) (labels : List Int)
        (start_at end_at : Int) (exclude_event_id : Option Int) (ev : Event),
        ev ∈ _find_conflicts events creator_id labels start_at end_at exclude_event_id ↔
          (ev ∈ events ∧ ev.start_at < end_at ∧ start_at < ev.end_at
            ∧ (ev.creator_tg_user_id = creator_id ∨ ∃ p ∈ ev.participants, p ∈ labels)
            ∧ ∀ x, exclude_event_id = some x → ev.id ≠ x))
    ∧ (∀ (events : List Event) (creator_id : Int) (labels : List Int)
        (start_at end_at : Int) (exclude_event_id : Option Int) (ev : Event),
        ev.end_at = start_at →
          ev ∉ _find_conflicts events creator_id labels start_at end_at exclude_event_id)
    ∧ (∀ (events : List Event) (creator_id : Int) (labels : List Int)
        (start_at end_at : Int) (exclude_event_id : Option Int) (ev : Event),
        (∀ u, (u = ev.creator_tg_user_id ∨ u ∈ ev.participants) →
          ¬(u = creator_id ∨ u ∈ labels)) →
          ev ∉ _find_conflicts events creator_id labels start_at end_at exclude_event_id)
    ∧ (∀ (events : List Event) (next_id now : Int) (payload : EventCreate),
        ¬ payload.start_at < now → ¬ payload.end_at ≤ payload.start_at →
          ((∃ items, (create_event events next_id now payload).1 = .conflict items) ↔
            _find_conflicts events payload.creator_tg_user_id
              (_normalize_participants payload.participants) payload.start_at
              payload.end_at none ≠ []))
    ∧ _find_conflicts [⟨1, 1, "Standup", 0, 10, false, []⟩] 1 [] 0 10 none
        = [⟨1, 1, "Standup", 0, 10, false, []⟩] := by
  refine ⟨fun events c labels s t ex ev => mem_find_conflicts_iff events c labels s t ex ev,
    ?_, ?_, ?_, by decide⟩
  · intro events c labels s t ex ev htouch hmem
    rw [mem_find_conflicts_iff] at hmem
    omega
  · intro events c labels s t ex ev hdisj hmem
    rw [mem_find_conflicts_iff] at hmem
    rcases hmem.2.2.2.1 with hcre | ⟨p, hp, hpl⟩
    · exact hdisj ev.creator_tg_user_id (Or.inl rfl) (Or.inl hcre)
    · exact hdisj p (Or.inr hp) (Or.inr hpl)
  · intro events next_id now payload h1 h2
    simp only [create_event, _ensure_timezone, if_neg h1, if_neg h2]
    by_cases hc : _find_conflicts events payload.creator_tg_user_id
        (_normalize_participants payload.participants) payload.start_at
        payload.end_at none = []
    · simp [hc]
    · simp [hc]

/-! ## Claim C2 -/

/-- C2, counterexample: the claim's own concrete scenario fails on the code.
User 1 has created "Standup" `[540, 570)` (09:00-09:30 in minutes of the
day); user 2 then creates "Planning" `[555, 600)` with user 1 as participant.
The claim says the second create is rejected with a conflict listing
"Standup" with conflicting user `{1}`; the code instead detects no conflict
(the shared user 1 is creator of the stored event but only a participant of
the request) and creates the event. -/
theorem standup_planning_not_rejected :
    create_event [⟨1, 1, "Standup", 540, 570, false, []⟩] 2 0 ⟨2, "Planning", 555, 600, [1]⟩
      = (.created ⟨2, 2, "Planning", 555, 600, [1]⟩,
          [⟨1, 1, "Standup", 540, 570, false, []⟩,
            ⟨2, 2, "Planning", 555, 600, false, [1]⟩]) := by
  decide

/-- C2, amended: for every conflicting event returned by create or update,
the reported `conflicting_participants` equal exactly the intersection of the
existing event's participant rows with the request's normalized participant
list (members of the request's participant list that are `≥ 1`); a creator
match is NOT included in the report.  In the claim's concrete scenario the
second create is not rejected at all: it succeeds, so no conflict entry
exists.  The last conjunct shows a same-creator overlap where the report
lists only the shared participant 2 and omits the shared creator 1. -/
theorem conflict_labels_are_participant_intersection :
    (∀ (ev : Event) (labels : List Int) (u : Int),
        u ∈ _event_conflict_labels ev labels ↔ (u ∈ ev.participants ∧ u ∈ labels))
    ∧ (∀ (events : List Event) (next_id now : Int) (payload : EventCreate)
          (items : List ConflictItem) (events' : List Event),
        create_event events next_id now payload = (.conflict items, events') →
          events' = events
            ∧ ∀ item ∈ items, ∃ ev ∈ events,
                item.event_id = ev.id ∧ item.title = ev.title
                  ∧ item.start_at = ev.start_at ∧ item.end_at = ev.end_at
                  ∧ ∀ u, u ∈ item.conflicting_participants ↔
                      (u ∈ ev.participants ∧ u ∈ payload.participants ∧ 1 ≤ u))
    ∧ (∀ (events : List Event) (now event_id : Int) (payload : EventUpdate)
          (items : List ConflictItem) (events' : List Event),
        update_event events now event_id payload = (.conflict items, events') →
          events' = events
            ∧ ∀ item ∈ items, ∃ ev ∈ events,
                item.event_id = ev.id ∧ item.title = ev.title
                  ∧ item.start_at = ev.start_at ∧ item.end_at = ev.end_at
                  ∧ ∀ u, u ∈ item.conflicting_participants ↔
                      (u ∈ ev.participants ∧ u ∈ payload.participants ∧ 1 ≤ u))
    ∧ (create_event [⟨1, 1, "Standup", 540, 570, false, []⟩] 2 0
          ⟨2, "Planning", 555, 600, [1]⟩).1
        = .created ⟨2, 2, "Planning", 555, 600, [1]⟩
    ∧ (create_event [⟨1, 1, "A", 10, 20, false, [2]⟩] 2 0 ⟨1, "B", 15, 25, [2, 7]⟩).1
        = .conflict [⟨1, "A", 10, 20, [2]⟩] := by
  refine ⟨fun ev labels u => mem_conflict_labels_iff ev labels u, ?_, ?_, by decide, by decide⟩
  · intro events next_id now payload items events' h
    obtain ⟨-, -, hev', hitems⟩ := create_event_conflict_inv h
    subst hitems hev'
    refine ⟨rfl, ?_⟩
    intro item hitem
    rw [List.mem_map] at hitem
    obtain ⟨ev, hev, rfl⟩ := hitem
    rw [mem_find_conflicts_iff] at hev
    refine ⟨ev, hev.1, rfl, rfl, rfl, rfl, ?_⟩
    intro u
    rw [conflict_item_of_event, mem_conflict_labels_iff, mem_normalize_iff]
  · intro events now event_id payload items events' h
    obtain ⟨current, -, -, hev', hitems⟩ := update_event_conflict_inv h
    subst hitems hev'
    refine ⟨rfl, ?_⟩
    intro item hitem
    rw [List.mem_map] at hitem
    obtain ⟨ev, hev, rfl⟩ := hitem
    rw [mem_find_conflicts_iff] at hev
    refine ⟨ev, hev.1, rfl, rfl, rfl, rfl, ?_⟩
    intro u
    rw [conflict_item_of_event, mem_conflict_labels_iff, mem_normalize_iff]

/-! ## Claim C3 -/

/-- C3, confirmed: `claim_due_reminders` returns exactly the stored events
with `reminder_sent = false` and `now < start_at ≤ now + 10` (the lookahead
is the fixed `timedelta(minutes=10)`), each as `reminder_out_of_event`, whose
recipients are exactly the creator united with the participant set.  The body
of the Python function only executes `SELECT` statements, so it is embedded
as a pure read: it takes the store and returns only the reminder list,
leaving no way to flip any `reminder_sent` flag.  The closed conjuncts run
the claim's scenario: an event starting in 8 minutes with `reminder_sent =
false` is returned (with deduplicated, creator-including recipients), and
after `mark_reminder_sent` a second call no longer returns it. -/
theorem claim_due_reminders_characterization :
    (∀ (events : List Event) (now : Int) (r : ReminderOut),
        r ∈ claim_due_reminders events now ↔
          ∃ ev ∈ events, ev.reminder_sent = false ∧ now < ev.start_at
            ∧ ev.start_at ≤ now + 10 ∧ r = reminder_out_of_event ev)
    ∧ (∀ (ev : Event) (u : Int),
        u ∈ (reminder_out_of_event ev).recipients ↔
          (u = ev.creator_tg_user_id ∨ u ∈ ev.participants))
    ∧ (∀ ev : Event, (reminder_out_of_event ev).event_id = ev.id
        ∧ (reminder_out_of_event ev).title = ev.title
        ∧ (reminder_out_of_event ev).start_at = ev.start_at)
    ∧ claim_due_reminders [⟨1, 1, "Briefing", 8, 20, false, [2, 1]⟩] 0
        = [⟨1, [1, 2], "Briefing", 8⟩]
    ∧ claim_due_reminders (mark_reminder_sent [⟨1, 1, "Briefing", 8, 20, false, [2, 1]⟩] 1).2 0
        = [] := by
  refine ⟨?_, ?_, fun ev => ⟨rfl, rfl, rfl⟩, by decide, by decide⟩
  · intro events now r
    simp only [claim_due_reminders, _ensure_timezone, List.mem_map,
      List.mem_insertionSort, List.mem_filter, Bool.and_eq_true, decide_eq_true_eq]
    constructor
    · rintro ⟨ev, ⟨hm, ⟨h1, h2⟩, h3⟩, rfl⟩
      exact ⟨ev, hm, h1, h2, h3, rfl⟩
    · rintro ⟨ev, hm, h1, h2, h3, rfl⟩
      exact ⟨ev, ⟨hm, ⟨h1, h2⟩, h3⟩, rfl⟩
  · intro ev u
    simp [reminder_out_of_event, List.mem_insertionSort, List.mem_dedup]

/-! ## Claim C4 -/

/-- C4, confirmed: `mark_reminder_sent` (the acknowledge call) transitions
exactly the not-yet-reminded rows with the given id and reports whether it
transitioned anything.  First acknowledge on an unreminded stored event
returns `true` and leaves every row with that id reminded; an immediate
second acknowledge is a no-op returning `false`; an acknowledge on a store
whose rows with that id are all already reminded (in particular a store with
no such row) returns `false` and leaves the store unchanged.  The closed
conjuncts run the transition, the repeat and the missing-event case. -/
theorem mark_reminder_sent_idempotent :
    (∀ (events : List Event) (event_id : Int) (ev : Event),
        ev ∈ events → ev.id = event_id → ev.reminder_sent = false →
          (mark_reminder_sent events event_id).1 = true)
    ∧ (∀ (events : List Event) (event_id : Int) (e' : Event),
        e' ∈ (mark_reminder_sent events event_id).2 → e'.id = event_id →
          e'.reminder_sent = true)
    ∧ (∀ (events : List Event) (event_id : Int),
        mark_reminder_sent (mark_reminder_sent events event_id).2 event_id
          = (false, (mark_reminder_sent events event_id).2))
    ∧ (∀ (events : List Event) (event_id : Int),
        (∀ ev ∈ events, ev.id = event_id → ev.reminder_sent = true) →
          mark_reminder_sent events event_id = (false, events))
    ∧ mark_reminder_sent [⟨1, 1, "Briefing", 8, 20, false, [2]⟩] 1
        = (true, [⟨1, 1, "Briefing", 8, 20, true, [2]⟩])
    ∧ mark_reminder_sent [⟨1, 1, "Briefing", 8, 20, true, [2]⟩] 1
        = (false, [⟨1, 1, "Briefing", 8, 20, true, [2]⟩])
    ∧ mark_reminder_sent [] 5 = (false, []) := by
  have hmem : ∀ (events : List Event) (event_id : Int) (e' : Event),
      e' ∈ (mark_reminder_sent events event_id).2 → e'.id = event_id →
        e'.reminder_sent = true := by
    intro events event_id e' he' hid
    simp only [mark_reminder_sent, List.mem_map] at he'
    obtain ⟨e, he, rfl⟩ := he'
    by_cases hc : e.id = event_id ∧ e.reminder_sent = false
    · simp [hc]
    · simp only [if_neg hc]
      simp only [if_neg hc] at hid
      rcases Decidable.not_and_iff_or_not.mp hc with h | h
      · exact absurd hid h
      · revert h
        cases e.reminder_sent <;> simp
  have hnone : ∀ (events : List Event) (event_id : Int),
      (∀ ev ∈ events, ev.id = event_id → ev.reminder_sent = true) →
        mark_reminder_sent events event_id = (false, events) := by
    intro events event_id hall
    simp only [mark_reminder_sent, Prod.mk.injEq]
    constructor
    · rw [decide_eq_false_iff_not]
      intro hpos
      rw [List.length_pos] at hpos
      obtain ⟨e, he⟩ := List.exists_mem_of_ne_nil _ hpos
      rw [List.mem_filter, Bool.and_eq_true, decide_eq_true_eq, decide_eq_true_eq] at he
      exact absurd (hall e he.1 he.2.1) (by simp [he.2.2])
    · rw [show events = List.map id events from (List.map_id events).symm]
      rw [List.map_map]
      refine List.map_congr_left ?_
      intro e he
      simp only [Function.comp, id]
      rw [if_neg]
      intro ⟨h1, h2⟩
      exact absurd (hall e he h1) (by simp [h2])
  refine ⟨?_, hmem, ?_, hnone, by decide, by decide, by decide⟩
  · intro events event_id ev hev hid hrem
    simp only [mark_reminder_sent, decide_eq_true_eq]
    rw [List.length_pos]
    intro hnil
    have : ev ∈ List.filter
        (fun e => decide (e.id = event_id) && decide (e.reminder_sent = false)) events := by
      rw [List.mem_filter]
      exact ⟨hev, by simp [hid, hrem]⟩
    rw [hnil] at this
    exact absurd this (List.not_mem_nil ev)
  · intro events event_id
    exact hnone _ _ (fun ev hev hid => hmem events event_id ev hev hid)

/-! ## Claim C5 -/

/-- C5, confirmed: every successful `update_event` stores the row with
`reminder_sent = false` (whatever it was before, and regardless of whether
the times changed), with the payload's title, window and normalized
participants, and the returned view reflects the replacement.  The closed
conjunct updates a `reminder_sent = true` event to the identical
title/window/participants and shows the flag still resets. -/
theorem update_event_resets_reminder_and_replaces_fields :
    (∀ (events : List Event) (now event_id : Int) (payload : EventUpdate)
        (out : EventOut) (events' : List Event),
        update_event events now event_id payload = (.updated out, events') →
          (∀ e' ∈ events', e'.id = event_id →
              e'.reminder_sent = false ∧ e'.title = payload.title
                ∧ e'.start_at = payload.start_at ∧ e'.end_at = payload.end_at
                ∧ e'.participants = _normalize_participants payload.participants)
            ∧ (∃ e' ∈ events', e'.id = event_id)
            ∧ out.title = payload.title ∧ out.start_at = payload.start_at
            ∧ out.end_at = payload.end_at
            ∧ ∀ u, u ∈ out.participants ↔ (u ∈ payload.participants ∧ 1 ≤ u))
    ∧ update_event [⟨1, 1, "Same", 5, 6, true, [3]⟩] 0 1 ⟨1, "Same", 5, 6, [3]⟩
        = (.updated ⟨1, 1, "Same", 5, 6, [3]⟩, [⟨1, 1, "Same", 5, 6, false, [3]⟩]) := by
  refine ⟨?_, by decide⟩
  intro events now event_id payload out events' h
  obtain ⟨current, hfind, -, -, -, -, hout, hev'⟩ := update_event_updated_inv h
  subst hout hev'
  refine ⟨?_, ?_, rfl, rfl, rfl, ?_⟩
  · intro e' he' hid
    rw [List.mem_map] at he'
    obtain ⟨e, he, rfl⟩ := he'
    by_cases hc : e.id = event_id
    · simp [if_pos hc, updated_event_row]
    · rw [if_neg hc] at hid ⊢
      exact absurd hid hc
  · have hcur : current ∈ events := List.mem_of_find?_eq_some hfind
    have hcid : current.id = event_id := by
      have := List.find?_some hfind
      rwa [decide_eq_true_eq] at this
    refine ⟨updated_event_row current payload, ?_, ?_⟩
    · have := List.mem_map_of_mem
        (fun e => if e.id = event_id then updated_event_row e payload else e) hcur
      simpa [hcid] using this
    · simpa [updated_event_row] using hcid
  · intro u
    rw [_event_to_out]
    simp only [updated_event_row, List.mem_insertionSort]
    exact mem_normalize_iff payload.participants u

/-! ## Claim C6 -/

/-- C6, counterexample: creator 5 creates an event naming themself as a
participant (input `[5, 5, 0]`).  The claim says self-references to the
creator are stripped, so the stored participant set should be empty; the
code's `_normalize_participants` only deduplicates and drops ids `< 1`, and
the stored participant set is `[5]` — the creator appears in the stored
participant set of their own event. -/
theorem create_event_keeps_creator_self_reference :
    create_event [] 1 0 ⟨5, "Self", 10, 20, [5, 5, 0]⟩
      = (.created ⟨1, 5, "Self", 10, 20, [5]⟩, [⟨1, 5, "Self", 10, 20, false, [5]⟩])
      ∧ _normalize_participants [5, 5, 0] = [5] := by
  constructor <;> decide

/-- C6, amended: the participant set stored by a successful create (and
likewise update) is the input list deduplicated, with ids `< 1` dropped and
sorted ascending; self-references to the creator are NOT stripped, so a
creator who lists themself stays in the stored participant set of their own
event. -/
theorem stored_participants_are_normalized_input :
    (∀ (l : List Int) (u : Int), u ∈ _normalize_participants l ↔ (u ∈ l ∧ 1 ≤ u))
    ∧ (∀ l : List Int, (_normalize_participants l).Nodup
        ∧ List.Sorted (· ≤ ·) (_normalize_participants l))
    ∧ (∀ (events : List Event) (next_id now : Int) (payload : EventCreate)
          (out : EventOut) (events' : List Event),
        create_event events next_id now payload = (.created out, events') →
          events' = events ++ [new_event_row next_id payload]
            ∧ (new_event_row next_id payload).participants
                = _normalize_participants payload.participants)
    ∧ (∀ (events : List Event) (now event_id : Int) (payload : EventUpdate)
          (out : EventOut) (events' : List Event),
        update_event events now event_id payload = (.updated out, events') →
          ∀ e' ∈ events', e'.id = event_id →
            e'.participants = _normalize_participants payload.participants)
    ∧ (new_event_row 1 ⟨5, "Self", 10, 20, [5, 5, 0]⟩).participants = [5] := by
  refine ⟨fun l u => mem_normalize_iff l u,
    fun l => ⟨normalize_nodup l, normalize_sorted l⟩, ?_, ?_, by decide⟩
  · intro events next_id now payload out events' h
    obtain ⟨-, -, -, -, hev'⟩ := create_event_created_inv h
    exact ⟨hev', rfl⟩
  · intro events now event_id payload out events' h
    obtain ⟨current, -, -, -, -, -, -, hev'⟩ := update_event_updated_inv h
    subst hev'
    intro e' he' hid
    rw [List.mem_map] at he'
    obtain ⟨e, he, rfl⟩ := he'
    by_cases hc : e.id = event_id
    · simp [if_pos hc, updated_event_row]
    · rw [if_neg hc] at hid ⊢
      exact absurd hid hc

/-! ## Claim C7 -/

/-- C7, counterexample: the store holds two conflicting events with equal
start times, id 5 first and id 3 second.  The claim says ties on start time
are broken by event id ascending, which would put id 3 first; the query
(`ORDER BY events.start_at ASC` with no second key) keeps the tied rows in
store order and returns id 5 first. -/
theorem find_conflicts_ties_not_broken_by_id :
    (_find_conflicts [⟨5, 1, "A", 0, 10, false, []⟩, ⟨3, 1, "B", 0, 10, false, []⟩]
        1 [] 0 10 none).map (fun e => e.id) = [5, 3] := by
  decide

/-- C7, amended: the conflict list is sorted by start time ascending and is a
permutation of the store rows passing the conflict predicate; equal start
times are NOT tie-broken by event id — tied rows keep their relative store
order (the query orders by `start_at` only), so the order among simultaneous
events follows row order, not id order.  The closed conjunct shows the sort
by start time on out-of-order input. -/
theorem find_conflicts_sorted_by_start :
    (∀ (events : List Event) (creator_id : Int) (labels : List Int)
        (start_at end_at : Int) (exclude_event_id : Option Int),
        List.Sorted (fun a b : Event => a.start_at ≤ b.start_at)
          (_find_conflicts events creator_id labels start_at end_at exclude_event_id))
    ∧ (∀ (events : List Event) (creator_id : Int) (labels : List Int)
        (start_at end_at : Int) (exclude_event_id : Option Int),
        (_find_conflicts events creator_id labels start_at end_at exclude_event_id).Perm
          (events.filter
            (conflict_row_pred creator_id labels start_at end_at exclude_event_id)))
    ∧ (_find_conflicts [⟨2, 1, "Late", 7, 10, false, []⟩, ⟨3, 1, "Early", 1, 4, false, []⟩]
        1 [] 0 20 none).map (fun e => e.id) = [3, 2] := by
  exact ⟨fun events c labels s t ex => List.sorted_insertionSort _ _,
    fun events c labels s t ex => List.perm_insertionSort _ _, by decide⟩

/-! ## Claim C8 -/

/-- C8, confirmed: for update and delete, a store with no row of the given id
yields `notFound` whatever the actor; a store whose row exists but whose
creator differs from the actor yields `forbidden` (`PermissionError`), a
distinct outcome, with the store — the event and its participations —
returned unchanged.  Existence is checked first: the `notFound` conjuncts
need no ownership hypothesis, and `forbidden` requires the row to have been
found.  The closed conjuncts run both failure kinds against the same store. -/
theorem update_delete_check_existence_then_ownership :
    (∀ (events : List Event) (now event_id : Int) (payload : EventUpdate),
        (events.find? fun e => decide (e.id = event_id)) = none →
          update_event events now event_id payload = (.notFound, events))
    ∧ (∀ (events : List Event) (now event_id : Int) (payload : EventUpdate) (current : Event),
        (events.find? fun e => decide (e.id = event_id)) = some current →
        current.creator_tg_user_id ≠ payload.actor_tg_user_id →
          update_event events now event_id payload
            = (.forbidden "Only creator can update event", events))
    ∧ (∀ (events : List Event) (event_id : Int) (payload : EventDelete),
        (events.find? fun e => decide (e.id = event_id)) = none →
          delete_event events event_id payload = (.notFound, events))
    ∧ (∀ (events : List Event) (event_id : Int) (payload : EventDelete) (current : Event),
        (events.find? fun e => decide (e.id = event_id)) = some current →
        current.creator_tg_user_id ≠ payload.actor_tg_user_id →
          delete_event events event_id payload
            = (.forbidden "Only creator can delete event", events))
    ∧ update_event [⟨1, 1, "Old", 5, 6, true, [3]⟩] 0 2 ⟨2, "New", 5, 7, [4]⟩
        = (.notFound, [⟨1, 1, "Old", 5, 6, true, [3]⟩])
    ∧ update_event [⟨1, 1, "Old", 5, 6, true, [3]⟩] 0 1 ⟨2, "New", 5, 7, [4]⟩
        = (.forbidden "Only creator can update event", [⟨1, 1, "Old", 5, 6, true, [3]⟩])
    ∧ delete_event [⟨1, 1, "Old", 5, 6, true, [3]⟩] 2 ⟨2⟩
        = (.notFound, [⟨1, 1, "Old", 5, 6, true, [3]⟩])
    ∧ delete_event [⟨1, 1, "Old", 5, 6, true, [3]⟩] 1 ⟨2⟩
        = (.forbidden "Only creator can delete event", [⟨1, 1, "Old", 5, 6, true, [3]⟩]) := by
  refine ⟨?_, ?_, ?_, ?_, by decide, by decide, by decide, by decide⟩
  · intro events now event_id payload hfind
    simp only [update_event, hfind]
  · intro events now event_id payload current hfind hne
    simp only [update_event, hfind, if_pos hne]
  · intro events event_id payload hfind
    simp only [delete_event, hfind]
  · intro events event_id payload current hfind hne
    simp only [delete_event, hfind, if_pos hne]

/-! ## Claim C9 -/

/-- C9, confirmed: for create, and for update once the request has passed the
existence and ownership checks (the code evaluates those first), a payload
with `start_at` earlier than the current time is rejected with the
`ValueError` naming the start-in-past rule, and otherwise one with
`end_at ≤ start_at` is rejected with the `ValueError` naming the window
rule; in every such case the store is returned unchanged — no event or
participation is written.  The closed conjuncts exercise both rules,
including the boundary `end_at = start_at`. -/
theorem create_update_reject_invalid_times :
    (∀ (events : List Event) (next_id now : Int) (payload : EventCreate),
        payload.start_at < now →
          create_event events next_id now payload
            = (.validationError "start_at must be greater than or equal to current time",
                events))
    ∧ (∀ (events : List Event) (next_id now : Int) (payload : EventCreate),
        ¬ payload.start_at < now → payload.end_at ≤ payload.start_at →
          create_event events next_id now payload
            = (.validationError "end_at must be later than start_at", events))
    ∧ (∀ (events : List Event) (now event_id : Int) (payload : EventUpdate) (current : Event),
        (events.find? fun e => decide (e.id = event_id)) = some current →
        current.creator_tg_user_id = payload.actor_tg_user_id →
        payload.start_at < now →
          update_event events now event_id payload
            = (.validationError "start_at must be greater than or equal to current time",
                events))
    ∧ (∀ (events : List Event) (now event_id : Int) (payload : EventUpdate) (current : Event),
        (events.find? fun e => decide (e.id = event_id)) = some current →
        current.creator_tg_user_id = payload.actor_tg_user_id →
        ¬ payload.start_at < now → payload.end_at ≤ payload.start_at →
          update_event events now event_id payload
            = (.validationError "end_at must be later than start_at", events))
    ∧ create_event [] 1 100 ⟨1, "Past", 50, 60, []⟩
        = (.validationError "start_at must be greater than or equal to current time", [])
    ∧ create_event [] 1 0 ⟨1, "Empty", 50, 50, []⟩
        = (.validationError "end_at must be later than start_at", [])
    ∧ update_event [⟨1, 1, "Old", 5, 6, true, [3]⟩] 0 1 ⟨1, "New", 7, 7, [4]⟩
        = (.validationError "end_at must be later than start_at",
            [⟨1, 1, "Old", 5, 6, true, [3]⟩]) := by
  refine ⟨?_, ?_, ?_, ?_, by decide, by decide, by decide⟩
  · intro events next_id now payload h1
    simp only [create_event, _ensure_timezone, if_pos h1]
  · intro events next_id now payload h1 h2
    simp only [create_event, _ensure_timezone, if_neg h1, if_pos h2]
  · intro events now event_id payload current hfind hcre h1
    simp only [update_event, hfind, _ensure_timezone, if_pos h1,
      if_neg (not_not_intro hcre)]
  · intro events now event_id payload current hfind hcre h1 h2
    simp only [update_event, hfind, _ensure_timezone, if_neg h1, if_pos h2,
      if_neg (not_not_intro hcre)]

/-! ## Claim C10 -/

/-- C10, confirmed: participant ids `< 1` are dropped by
`_normalize_participants` without any error (the closed conjunct shows a
create with inputs `0` and `-3` succeeding rather than failing validation),
and the publicly returned user-id lists are duplicate-free and sorted
ascending: the view built by `_event_to_out` whenever the stored participant
rows are duplicate-free (which the composite primary key on
`event_participants` guarantees, and which create/update writes satisfy
since they store `_normalize_participants` output), and the recipient list
of every claimed reminder unconditionally. -/
theorem normalization_drops_low_ids_and_outputs_are_sorted :
    (∀ (l : List Int) (u : Int), u ∈ _normalize_participants l ↔ (u ∈ l ∧ 1 ≤ u))
    ∧ (∀ ev : Event, ev.participants.Nodup →
        ((_event_to_out ev).participants.Nodup
          ∧ List.Sorted (· ≤ ·) (_event_to_out ev).participants))
    ∧ (∀ (events : List Event) (now : Int) (r : ReminderOut),
        r ∈ claim_due_reminders events now →
          (r.recipients.Nodup ∧ List.Sorted (· ≤ ·) r.recipients))
    ∧ (∀ (events : List Event) (next_id now : Int) (payload : EventCreate)
          (out : EventOut) (events' : List Event),
        create_event events next_id now payload = (.created out, events') →
          (out.participants.Nodup ∧ List.Sorted (· ≤ ·) out.participants))
    ∧ create_event [] 1 0 ⟨1, "Filtered", 5, 6, [0, -3, 2]⟩
        = (.created ⟨1, 1, "Filtered", 5, 6, [2]⟩, [⟨1, 1, "Filtered", 5, 6, false, [2]⟩]) := by
  have hout : ∀ ev : Event, ev.participants.Nodup →
      ((_event_to_out ev).participants.Nodup
        ∧ List.Sorted (· ≤ ·) (_event_to_out ev).participants) := by
    intro ev hnd
    refine ⟨?_, List.sorted_insertionSort _ _⟩
    exact ((List.perm_insertionSort _ _).nodup_iff).mpr hnd
  refine ⟨fun l u => mem_normalize_iff l u, hout, ?_, ?_, by decide⟩
  · intro events now r hr
    simp only [claim_due_reminders, List.mem_map] at hr
    obtain ⟨ev, -, rfl⟩ := hr
    refine ⟨?_, List.sorted_insertionSort _ _⟩
    exact ((List.perm_insertionSort _ _).nodup_iff).mpr (List.nodup_dedup _)
  · intro events next_id now payload out events' h
    obtain ⟨-, -, -, hout', -⟩ := create_event_created_inv h
    subst hout'
    exact hout _ (normalize_nodup payload.participants)
